import Mathlib

/-!
Verification of the schedule-timeline reconstruction embedded in `plot_gantt`
(src/utils.py) and of the seeding routine `set_seed`, for a single-machine
scheduling visualizer (1|r_j|∑C_j).

Times (processing times, release dates, clock values) are modelled as
rationals: the claims restrict attention to finite non-negative real values,
for which exact arithmetic is faithful.  Job indices are natural numbers;
the numpy arrays `processing_times` and `release_dates` are modelled as
lists indexed by `List.get?`, so an out-of-range index surfaces as a `none`
lookup, which aborts the pass exactly where Python's IndexError would.
-/

/-- The per-position dictionary appended to `schedule_data` in `plot_gantt`
(keys: position, job, start, finish, duration, release, idle). -/
structure TimingRecord where
  position : Nat
  job : Nat
  start : ℚ
  finish : ℚ
  duration : ℚ
  release : ℚ
  idle : ℚ
deriving DecidableEq, Repr

/-- The schedule-building loop of `plot_gantt` (src/utils.py lines 29-48):
for each position, `start = max(current_time, release_dates[job])`,
`finish = start + processing_times[job]`, `idle = start - current_time`,
emit the record and advance `current_time` to `finish`.  Returns the emitted
records, the final `current_time`, and a flag that is `true` when an index
lookup failed (Python would raise IndexError there, emitting nothing further). -/
def buildScheduleAux (processing_times release_dates : List ℚ) :
    Nat → ℚ → List Nat → List TimingRecord × ℚ × Bool
  | _, current_time, [] => ([], current_time, false)
  | position, current_time, job :: rest =>
    match release_dates[job]?, processing_times[job]? with
    | some rel, some dur =>
      let s := max current_time rel
      let f := s + dur
      let res := buildScheduleAux processing_times release_dates (position + 1) f rest
      (⟨position, job, s, f, dur, rel, s - current_time⟩ :: res.1, res.2)
    | _, _ => ([], current_time, true)

/-- `plot_gantt`'s reconstruction pass: statefully builds `schedule_data`
starting from `current_time = 0`.  The second component is the final
`current_time` (used at line 86 to size the time axis); the third is the
lookup-failure flag. -/
def plot_gantt (sequence : List Nat) (processing_times release_dates : List ℚ) :
    List TimingRecord × ℚ × Bool :=
  buildScheduleAux processing_times release_dates 0 0 sequence

/-- The reference algorithm of spec section 4.1, stated over total mappings
job → rational: `start = max(current_time, release_date[j])`,
`idle = start − current_time`, `finish = start + processing_time[j]`,
emit the record, `current_time = finish`. -/
def reconstructAux (processing_time release_date : Nat → ℚ) :
    Nat → ℚ → List Nat → List TimingRecord
  | _, _, [] => []
  | p, t, j :: rest =>
    let s := max t (release_date j)
    let f := s + processing_time j
    ⟨p, j, s, f, processing_time j, release_date j, s - t⟩ ::
      reconstructAux processing_time release_date (p + 1) f rest

/-- Spec section 4.1's `reconstruct`, starting from `current_time = 0`. -/
def reconstruct (sequence : List Nat) (processing_time release_date : Nat → ℚ) :
    List TimingRecord :=
  reconstructAux processing_time release_date 0 0 sequence

/-- A valid input in the sense of the spec's preconditions: every job index
in the sequence is in range of both mappings, and all processing times and
release dates are non-negative (finiteness is inherent to ℚ). -/
def ValidInput (sequence : List Nat) (processing_times release_dates : List ℚ) : Prop :=
  (∀ j ∈ sequence, j < processing_times.length ∧ j < release_dates.length) ∧
  (∀ x ∈ processing_times, 0 ≤ x) ∧ (∀ x ∈ release_dates, 0 ≤ x)

instance (seq : List Nat) (pt rd : List ℚ) : Decidable (ValidInput seq pt rd) := by
  unfold ValidInput; infer_instance

/-- Modelled from the spec: the process-wide pseudorandom-generator state
touched by `set_seed` — the internal states of Python's `random` module
generator and of NumPy's global generator, both external to this repository.
After reseeding, each state is a function of the seed alone; we record the
seed that determines it. -/
structure RngState where
  pythonRandom : Int
  numpyGlobal : Int
deriving DecidableEq, Repr

/-- `set_seed` (src/utils.py lines 9-17): calls `random.seed(seed)` and
`np.random.seed(seed)`, overwriting both process-wide generator states with
states determined by the seed alone; it returns nothing. -/
def set_seed (seed : Int) (_st : RngState) : RngState :=
  { pythonRandom := seed, numpyGlobal := seed }

/-- The invariant threaded through the loop: starting from machine-available
time `t`, successive records chain their fields exactly as the loop computes
them, each record's lookups succeed, and the clock advances to each finish. -/
def Chained (pt rd : List ℚ) : ℚ → List TimingRecord → Prop
  | _, [] => True
  | t, r :: rs =>
      pt[r.job]? = some r.duration ∧ rd[r.job]? = some r.release ∧
      r.start = max t r.release ∧ r.finish = r.start + r.duration ∧
      r.idle = r.start - t ∧ Chained pt rd r.finish rs

/-- `finish[p−1]` with `finish[−1] = t` (the clock value the pass started from). -/
def prevFinish (t : ℚ) (recs : List TimingRecord) : Nat → ℚ
  | 0 => t
  | q + 1 => (recs[q]?.map TimingRecord.finish).getD t

theorem chained_buildScheduleAux (pt rd : List ℚ) (seq : List Nat) :
    ∀ pos t, Chained pt rd t (buildScheduleAux pt rd pos t seq).1 := by
  induction seq with
  | nil => intro pos t; simp [buildScheduleAux, Chained]
  | cons j rest ih =>
    intro pos t
    cases hrel : rd[j]? with
    | none => simp [buildScheduleAux, hrel, Chained]
    | some rel =>
      cases hdur : pt[j]? with
      | none => simp [buildScheduleAux, hrel, hdur, Chained]
      | some dur =>
        simp only [buildScheduleAux, hrel, hdur]
        exact ⟨hdur, hrel, rfl, rfl, rfl, ih _ _⟩

theorem chained_nonoverlap (pt rd : List ℚ) :
    ∀ (recs : List TimingRecord) (t : ℚ), Chained pt rd t recs →
      ∀ (p : Nat) (r1 r2 : TimingRecord),
        recs[p]? = some r1 → recs[p + 1]? = some r2 → r1.finish ≤ r2.start := by
  intro recs
  induction recs with
  | nil => intro t _ p r1 r2 h1 _; simp at h1
  | cons a rs ih =>
    intro t h p r1 r2 h1 h2
    obtain ⟨_, _, _, _, _, hchain⟩ := h
    cases p with
    | zero =>
      rw [List.getElem?_cons_zero, Option.some_inj] at h1
      subst h1
      cases rs with
      | nil => simp at h2
      | cons b rs' =>
        rw [List.getElem?_cons_succ, List.getElem?_cons_zero, Option.some_inj] at h2
        subst h2
        obtain ⟨_, _, hstart, _, _, _⟩ := hchain
        rw [hstart]
        exact le_max_left _ _
    | succ q =>
      exact ih a.finish hchain q r1 r2 (by simpa using h1) (by simpa using h2)

theorem chained_release (pt rd : List ℚ) :
    ∀ (recs : List TimingRecord) (t : ℚ), Chained pt rd t recs →
      ∀ r ∈ recs, rd[r.job]? = some r.release ∧ r.release ≤ r.start := by
  intro recs
  induction recs with
  | nil => intro t _ r hr; simp at hr
  | cons a rs ih =>
    intro t h r hr
    obtain ⟨_, hrd, hstart, _, _, hchain⟩ := h
    rcases List.mem_cons.mp hr with rfl | hr'
    · exact ⟨hrd, hstart ▸ le_max_right _ _⟩
    · exact ih a.finish hchain r hr'

theorem prevFinish_cons (t : ℚ) (a : TimingRecord) (rs : List TimingRecord)
    (q : Nat) (r : TimingRecord) (h : rs[q]? = some r) :
    prevFinish t (a :: rs) (q + 1) = prevFinish a.finish rs q := by
  cases q with
  | zero => simp [prevFinish]
  | succ q' =>
    obtain ⟨hlt, -⟩ := List.getElem?_eq_some_iff.mp h
    have hq' : q' < rs.length := Nat.lt_of_succ_lt hlt
    simp [prevFinish, List.getElem?_eq_getElem hq']

theorem chained_idle (pt rd : List ℚ) :
    ∀ (recs : List TimingRecord) (t : ℚ), Chained pt rd t recs →
      ∀ (p : Nat) (r : TimingRecord), recs[p]? = some r →
        r.idle = r.start - prevFinish t recs p ∧ 0 ≤ r.idle ∧
        (prevFinish t recs p = r.release → r.idle = 0) := by
  intro recs
  induction recs with
  | nil => intro t _ p r h; simp at h
  | cons a rs ih =>
    intro t h p r hp
    obtain ⟨_, _, hstart, _, hidle, hchain⟩ := h
    cases p with
    | zero =>
      rw [List.getElem?_cons_zero, Option.some_inj] at hp
      subst hp
      refine ⟨by simpa [prevFinish] using hidle, ?_, ?_⟩
      · rw [hidle, hstart]
        exact sub_nonneg.mpr (le_max_left _ _)
      · intro ht
        simp only [prevFinish] at ht
        rw [hidle, hstart, ← ht, max_self, sub_self]
    | succ q =>
      have hq : rs[q]? = some r := by simpa using hp
      rw [prevFinish_cons t a rs q r hq]
      exact ih a.finish hchain q r hq

theorem final_buildScheduleAux (pt rd : List ℚ) (seq : List Nat) :
    ∀ (pos : Nat) (t : ℚ), (buildScheduleAux pt rd pos t seq).2.1
      = ((buildScheduleAux pt rd pos t seq).1.getLast?.map TimingRecord.finish).getD t := by
  induction seq with
  | nil => intro pos t; simp [buildScheduleAux]
  | cons j rest ih =>
    intro pos t
    cases hrel : rd[j]? with
    | none => simp [buildScheduleAux, hrel]
    | some rel =>
      cases hdur : pt[j]? with
      | none => simp [buildScheduleAux, hrel, hdur]
      | some dur =>
        simp only [buildScheduleAux, hrel, hdur]
        rw [ih (pos + 1) (max t rel + dur)]
        cases hres : (buildScheduleAux pt rd (pos + 1) (max t rel + dur) rest).1 with
        | nil => simp [hres]
        | cons x xs =>
          obtain ⟨y, hy⟩ := Option.isSome_iff_exists.mp
            (List.getLast?_isSome.mpr (List.cons_ne_nil x xs))
          simp [hres, List.getLast?_cons_cons, hy]

theorem buildScheduleAux_eq_reconstructAux (pt rd : List ℚ) (f g : Nat → ℚ) :
    ∀ (seq : List Nat), (∀ j ∈ seq, pt[j]? = some (f j)) → (∀ j ∈ seq, rd[j]? = some (g j)) →
      ∀ (pos : Nat) (t : ℚ), (buildScheduleAux pt rd pos t seq).1 = reconstructAux f g pos t seq := by
  intro seq
  induction seq with
  | nil => intro _ _ pos t; simp [buildScheduleAux, reconstructAux]
  | cons j rest ih =>
    intro hpt hrd pos t
    have h1 : pt[j]? = some (f j) := hpt j (List.mem_cons_self j rest)
    have h2 : rd[j]? = some (g j) := hrd j (List.mem_cons_self j rest)
    simp only [buildScheduleAux, reconstructAux, h1, h2]
    exact congrArg _ (ih (fun k hk => hpt k (List.mem_cons_of_mem j hk))
      (fun k hk => hrd k (List.mem_cons_of_mem j hk)) _ _)

theorem buildScheduleAux_agree (pt1 rd1 pt2 rd2 : List ℚ) :
    ∀ (seq : List Nat), (∀ j ∈ seq, pt1[j]? = pt2[j]?) → (∀ j ∈ seq, rd1[j]? = rd2[j]?) →
      ∀ (pos : Nat) (t : ℚ),
        buildScheduleAux pt1 rd1 pos t seq = buildScheduleAux pt2 rd2 pos t seq := by
  intro seq
  induction seq with
  | nil => intro _ _ pos t; rfl
  | cons j rest ih =>
    intro hpt hrd pos t
    have h1 : pt1[j]? = pt2[j]? := hpt j (List.mem_cons_self j rest)
    have h2 : rd1[j]? = rd2[j]? := hrd j (List.mem_cons_self j rest)
    have ih' := ih (fun k hk => hpt k (List.mem_cons_of_mem j hk))
      (fun k hk => hrd k (List.mem_cons_of_mem j hk))
    cases h2' : rd2[j]? with
    | none => simp [buildScheduleAux, h2.trans h2', h2']
    | some rel =>
      cases h1' : pt2[j]? with
      | none => simp [buildScheduleAux, h1.trans h1', h2.trans h2', h1', h2']
      | some dur =>
        simp only [buildScheduleAux, h1.trans h1', h2.trans h2', h1', h2', ih']

theorem buildScheduleAux_err (pt rd : List ℚ) :
    ∀ (seq : List Nat) (pos : Nat) (t : ℚ),
      ((buildScheduleAux pt rd pos t seq).2.2 = true ↔
        ∃ j ∈ seq, pt.length ≤ j ∨ rd.length ≤ j) ∧
      (buildScheduleAux pt rd pos t seq).1.map TimingRecord.job
        = seq.takeWhile (fun j => decide (j < pt.length) && decide (j < rd.length)) := by
  intro seq
  induction seq with
  | nil => intro pos t; simp [buildScheduleAux]
  | cons j rest ih =>
    intro pos t
    cases hrel : rd[j]? with
    | none =>
      have hj : rd.length ≤ j := List.getElem?_eq_none_iff.mp hrel
      have hj' : ¬ j < rd.length := Nat.not_lt.mpr hj
      constructor
      · simp only [buildScheduleAux, hrel]
        simp only [true_iff]
        exact ⟨j, List.mem_cons_self j rest, Or.inr hj⟩
      · simp [buildScheduleAux, hrel, hj']
    | some rel =>
      have hjr : j < rd.length := (List.getElem?_eq_some_iff.mp hrel).1
      cases hdur : pt[j]? with
      | none =>
        have hj : pt.length ≤ j := List.getElem?_eq_none_iff.mp hdur
        have hj' : ¬ j < pt.length := Nat.not_lt.mpr hj
        constructor
        · simp only [buildScheduleAux, hrel, hdur]
          simp only [true_iff]
          exact ⟨j, List.mem_cons_self j rest, Or.inl hj⟩
        · simp [buildScheduleAux, hrel, hdur, hj']
      | some dur =>
        have hjp : j < pt.length := (List.getElem?_eq_some_iff.mp hdur).1
        obtain ⟨iherr, ihmap⟩ := ih (pos + 1) (max t rel + dur)
        constructor
        · simp only [buildScheduleAux, hrel, hdur]
          rw [iherr]
          simp [Nat.not_le.mpr hjp, Nat.not_le.mpr hjr]
        · simp only [buildScheduleAux, hrel, hdur, List.map_cons]
          rw [ihmap]
          simp [hjp, hjr]

/-- C1: For every sequence of valid job indices and mappings of processing
times and release dates, the timeline reconstruction embedded in `plot_gantt`
equals the reference algorithm of spec section 4.1 (record p has
`start = max(current_time, release_date[j])`, `finish = start + processing_time[j]`,
`idle = start - current_time`, then `current_time := finish`); in particular,
for `sequence=[0,1]`, `processing_time=[2,2]`, `release_date=[0,5]` it produces
record 0 with start 0 and finish 2, and record 1 with start 5, idle 3, finish 7. -/
theorem C1_plot_gantt_matches_spec_reconstruct (seq : List Nat) (pt rd : List ℚ)
    (f g : Nat → ℚ)
    (hpt : ∀ j ∈ seq, pt[j]? = some (f j)) (hrd : ∀ j ∈ seq, rd[j]? = some (g j)) :
    (plot_gantt seq pt rd).1 = reconstruct seq f g ∧
    ((plot_gantt [0, 1] [2, 2] [0, 5]).1.map fun r => (r.start, r.idle, r.finish))
      = [(0, 0, 2), (5, 3, 7)] :=
  ⟨buildScheduleAux_eq_reconstructAux pt rd f g seq hpt hrd 0 0,
    by norm_num [plot_gantt, buildScheduleAux, max_def]⟩

theorem C1_plot_gantt_matches_spec_reconstruct_witness :
    (∀ j ∈ [0, 1], (([2, 2] : List ℚ))[j]? = some ((fun _ => (2 : ℚ)) j)) ∧
    (∀ j ∈ [0, 1], (([0, 5] : List ℚ))[j]? = some ((fun j => if j = 0 then (0 : ℚ) else 5) j)) ∧
    ((plot_gantt [0, 1] [2, 2] [0, 5]).1
        = reconstruct [0, 1] (fun _ => 2) (fun j => if j = 0 then 0 else 5) ∧
      ((plot_gantt [0, 1] [2, 2] [0, 5]).1.map fun r => (r.start, r.idle, r.finish))
        = [(0, 0, 2), (5, 3, 7)]) :=
  ⟨by decide, by decide,
    C1_plot_gantt_matches_spec_reconstruct [0, 1] [2, 2] [0, 5]
      (fun _ => 2) (fun j => if j = 0 then 0 else 5) (by decide) (by decide)⟩

/-- C2: Non-overlap — for every valid input and every pair of consecutive
positions p, p+1 in the reconstructed timeline, `finish[p] ≤ start[p+1]`. -/
theorem C2_nonoverlap (seq : List Nat) (pt rd : List ℚ) (_h : ValidInput seq pt rd)
    (p : Nat) (r1 r2 : TimingRecord)
    (h1 : (plot_gantt seq pt rd).1[p]? = some r1)
    (h2 : (plot_gantt seq pt rd).1[p + 1]? = some r2) :
    r1.finish ≤ r2.start :=
  chained_nonoverlap pt rd _ 0 (chained_buildScheduleAux pt rd seq 0 0) p r1 r2 h1 h2

theorem C2_nonoverlap_witness :
    ValidInput [0, 1] [2, 2] [0, 5] ∧
    (TimingRecord.mk 0 0 0 2 2 0 0).finish ≤ (TimingRecord.mk 1 1 5 7 2 5 3).start :=
  ⟨by decide, C2_nonoverlap [0, 1] [2, 2] [0, 5] (by decide) 0
    (TimingRecord.mk 0 0 0 2 2 0 0) (TimingRecord.mk 1 1 5 7 2 5 3)
    (by norm_num [plot_gantt, buildScheduleAux, max_def]) (by norm_num [plot_gantt, buildScheduleAux, max_def])⟩

/-- C3: Release feasibility — for every valid input and every record of the
reconstructed timeline, `start[p] ≥ release_date[job[p]]` (the record's
release field is exactly `release_dates[job]`). -/
theorem C3_release_feasibility (seq : List Nat) (pt rd : List ℚ)
    (_h : ValidInput seq pt rd)
    (r : TimingRecord) (hr : r ∈ (plot_gantt seq pt rd).1) :
    rd[r.job]? = some r.release ∧ r.release ≤ r.start :=
  chained_release pt rd _ 0 (chained_buildScheduleAux pt rd seq 0 0) r hr

theorem C3_release_feasibility_witness :
    ValidInput [0, 1] [2, 2] [0, 5] ∧
    (([0, 5] : List ℚ))[(TimingRecord.mk 1 1 5 7 2 5 3).job]?
        = some (TimingRecord.mk 1 1 5 7 2 5 3).release ∧
    (TimingRecord.mk 1 1 5 7 2 5 3).release ≤ (TimingRecord.mk 1 1 5 7 2 5 3).start :=
  ⟨by decide, C3_release_feasibility [0, 1] [2, 2] [0, 5] (by decide)
    (TimingRecord.mk 1 1 5 7 2 5 3) (by norm_num [plot_gantt, buildScheduleAux, max_def])⟩

/-- C4: Idle accounting — for every valid input and every position p of the
reconstructed timeline, `idle[p] = start[p] − finish[p−1]` (with
`finish[−1] = 0`), `idle[p] ≥ 0`, and when the machine-availability time
equals the job's release date the job starts immediately with `idle = 0`. -/
theorem C4_idle_accounting (seq : List Nat) (pt rd : List ℚ) (_h : ValidInput seq pt rd)
    (p : Nat) (r : TimingRecord) (hp : (plot_gantt seq pt rd).1[p]? = some r) :
    r.idle = r.start - prevFinish 0 (plot_gantt seq pt rd).1 p ∧ 0 ≤ r.idle ∧
    (prevFinish 0 (plot_gantt seq pt rd).1 p = r.release → r.idle = 0) :=
  chained_idle pt rd _ 0 (chained_buildScheduleAux pt rd seq 0 0) p r hp

theorem C4_idle_accounting_witness :
    ValidInput [0, 1] [2, 2] [0, 2] ∧
    ((TimingRecord.mk 1 1 2 4 2 2 0).idle
        = (TimingRecord.mk 1 1 2 4 2 2 0).start
          - prevFinish 0 (plot_gantt [0, 1] [2, 2] [0, 2]).1 1 ∧
      0 ≤ (TimingRecord.mk 1 1 2 4 2 2 0).idle ∧
      (prevFinish 0 (plot_gantt [0, 1] [2, 2] [0, 2]).1 1
          = (TimingRecord.mk 1 1 2 4 2 2 0).release →
        (TimingRecord.mk 1 1 2 4 2 2 0).idle = 0)) :=
  ⟨by decide, C4_idle_accounting [0, 1] [2, 2] [0, 2] (by decide) 1
    (TimingRecord.mk 1 1 2 4 2 2 0) (by norm_num [plot_gantt, buildScheduleAux, max_def])⟩

/-- C5: Makespan consistency — for every valid non-empty input, the final
`current_time` after the loop (used at src/utils.py line 86 to size the time
axis) equals the finish of the last emitted record. -/
theorem C5_makespan_consistency (seq : List Nat) (pt rd : List ℚ)
    (h : ValidInput seq pt rd) (hne : seq ≠ []) :
    ∃ r : TimingRecord, (plot_gantt seq pt rd).1.getLast? = some r ∧
      (plot_gantt seq pt rd).2.1 = r.finish := by
  obtain ⟨hidx, -, -⟩ := h
  have hne' : (plot_gantt seq pt rd).1 ≠ [] := by
    cases seq with
    | nil => exact absurd rfl hne
    | cons j rest =>
      obtain ⟨hjp, hjr⟩ := hidx j (List.mem_cons_self j rest)
      simp [plot_gantt, buildScheduleAux,
        List.getElem?_eq_getElem hjp, List.getElem?_eq_getElem hjr]
  obtain ⟨y, hy⟩ := Option.isSome_iff_exists.mp (List.getLast?_isSome.mpr hne')
  refine ⟨y, hy, ?_⟩
  have hfin := final_buildScheduleAux pt rd seq 0 0
  simp only [plot_gantt] at hy ⊢
  rw [hfin, hy]
  rfl

theorem C5_makespan_consistency_witness :
    ValidInput [0, 1] [2, 2] [0, 5] ∧ ([0, 1] : List Nat) ≠ [] ∧
    ∃ r : TimingRecord, (plot_gantt [0, 1] [2, 2] [0, 5]).1.getLast? = some r ∧
      (plot_gantt [0, 1] [2, 2] [0, 5]).2.1 = r.finish :=
  ⟨by decide, by decide,
    C5_makespan_consistency [0, 1] [2, 2] [0, 5] (by decide) (by decide)⟩

/-- C6 counterexample: the claim says every invalid input fails at entry,
before any TimingRecord is computed.  On `sequence=[0,3]` with only 2 known
jobs the pass does fail, but only after the record for position 0 has been
built; and the negative processing time `[-1]` is not rejected at all. -/
theorem C6_counterexample_no_fail_fast :
    (plot_gantt [0, 3] [2, 2] [0, 5]).2.2 = true ∧
    (plot_gantt [0, 3] [2, 2] [0, 5]).1 ≠ [] ∧
    (plot_gantt [0] [-1] [0]).2.2 = false := by
  refine ⟨?_, ?_, ?_⟩ <;> norm_num [plot_gantt, buildScheduleAux, max_def]

/-- C6 (amended): the reconstruction performs no validation at entry.  It
fails exactly when some job index of the sequence is out of range of the
mappings (a missing entry), the failure happens at the first offending
position — the records actually built are those of the maximal in-range
prefix of the sequence — and negative time values are never rejected
(failure depends only on index ranges, not on signs). -/
theorem C6_amended_no_entry_validation (seq : List Nat) (pt rd : List ℚ) :
    ((plot_gantt seq pt rd).2.2 = true ↔
      ∃ j ∈ seq, pt.length ≤ j ∨ rd.length ≤ j) ∧
    (plot_gantt seq pt rd).1.map TimingRecord.job
      = seq.takeWhile (fun j => decide (j < pt.length) && decide (j < rd.length)) :=
  buildScheduleAux_err pt rd seq 0 0

/-- C7: Determinism — the reconstruction is a function of its arguments
only: running it twice on identical sequence, processing times, and release
dates yields identical results (records, final time, and error behaviour). -/
theorem C7_deterministic (s1 s2 : List Nat) (pt1 pt2 rd1 rd2 : List ℚ)
    (hs : s1 = s2) (hpt : pt1 = pt2) (hrd : rd1 = rd2) :
    plot_gantt s1 pt1 rd1 = plot_gantt s2 pt2 rd2 := by
  rw [hs, hpt, hrd]

theorem C7_deterministic_witness :
    ([0, 1] : List Nat) = [0, 1] ∧ ([2, 2] : List ℚ) = [2, 2] ∧
    ([0, 5] : List ℚ) = [0, 5] ∧
    plot_gantt [0, 1] [2, 2] [0, 5] = plot_gantt [0, 1] [2, 2] [0, 5] :=
  ⟨rfl, rfl, rfl, C7_deterministic [0, 1] [0, 1] [2, 2] [2, 2] [0, 5] [0, 5] rfl rfl rfl⟩

/-- C8: `set_seed` overwrites both process-wide generator states (Python's
`random` module and NumPy's global generator) with states determined by the
seed alone, returns nothing besides the new state and is total (no failure
mode); hence two runs that call it with the same seed — whatever the prior
generator states were — agree on every subsequent deterministic draw made
from the resulting state. -/
theorem C8_set_seed_reproducible (seed : Int) (s1 s2 : RngState) :
    set_seed seed s1 = set_seed seed s2 ∧
    ∀ (α : Type) (draw : RngState → α),
      draw (set_seed seed s1) = draw (set_seed seed s2) :=
  ⟨rfl, fun _ _ => rfl⟩

/-- C9: For the empty sequence, whatever the mappings, the reconstruction
yields no TimingRecords, a final `current_time` (makespan) of 0, and no
error. -/
theorem C9_empty_sequence (pt rd : List ℚ) :
    plot_gantt [] pt rd = ([], 0, false) := rfl

/-- C10: Noninterference of unused job entries — the reconstructed record
sequence depends only on the mapping entries of jobs occurring in the
sequence: two pairs of mappings agreeing on all such jobs yield identical
record sequences. -/
theorem C10_noninterference (seq : List Nat) (pt1 rd1 pt2 rd2 : List ℚ)
    (hpt : ∀ j ∈ seq, pt1[j]? = pt2[j]?) (hrd : ∀ j ∈ seq, rd1[j]? = rd2[j]?) :
    (plot_gantt seq pt1 rd1).1 = (plot_gantt seq pt2 rd2).1 :=
  congrArg Prod.fst (buildScheduleAux_agree pt1 rd1 pt2 rd2 seq hpt hrd 0 0)

theorem C10_noninterference_witness :
    (∀ j ∈ [0, 1], (([2, 2] : List ℚ))[j]? = (([2, 2, 99] : List ℚ))[j]?) ∧
    (∀ j ∈ [0, 1], (([0, 5] : List ℚ))[j]? = (([0, 5, 42] : List ℚ))[j]?) ∧
    (plot_gantt [0, 1] [2, 2] [0, 5]).1 = (plot_gantt [0, 1] [2, 2, 99] [0, 5, 42]).1 :=
  ⟨by decide, by decide,
    C10_noninterference [0, 1] [2, 2] [0, 5] [2, 2, 99] [0, 5, 42] (by decide) (by decide)⟩
